import Mathlib

/-!
Verification of the suspension-compatible read-through cache and code
generator of `src/index.js` (graphql-codegen Apollo suspense plugin).

The runtime part of the repository is the `createRepository` factory
emitted by the plugin (the `createRepo` template string, lines 8-26 of
`src/index.js`):

    read: (...args: TArgs): TReturn => \x7b
        const generateCacheKey = options?.toCacheKey ?? hash;
        const cacheKey = args ? generateCacheKey(args) : 'default';
        if (cache[cacheKey] === undefined) throw fetcher(...args).then(value => (cache[cacheKey] = value));
        else return cache[cacheKey];
    \x7d

We embed the JavaScript values and operations that this code exercises
(truthiness, `||`, missing-parameter defaulting to `undefined`,
`Object.values`, `Array.prototype.join`, record property access and
assignment), the derived cache key, and a small-step trace semantics of a
repository: a `read` call either hits the cache or starts a fetch; an
in-flight fetch later resolves (running the `.then` continuation that
writes the cache) or rejects (writing nothing).
-/

/-- A JavaScript value, as far as the cache and key derivation inspect one. -/
inductive JSValue where
  | undef
  | nullv
  | bool (b : Bool)
  | num (n : Int)
  | str (s : String)
  | arr (elems : List JSValue)
  | obj (fields : List (String × JSValue))

/-- `v === undefined`. -/
def JSValue.isUndef : JSValue → Bool
  | .undef => true
  | _ => false

/-- `v === undefined || v === null` (the elements `Array.prototype.join` renders as empty). -/
def JSValue.isUndefOrNull : JSValue → Bool
  | .undef => true
  | .nullv => true
  | _ => false

/-- JavaScript truthiness. -/
def jsTruthy : JSValue → Bool
  | .undef => false
  | .nullv => false
  | .bool b => b
  | .num n => n != 0
  | .str s => s != ""
  | .arr _ => true
  | .obj _ => true

/-- JavaScript `a || b`. -/
def jsOr (a b : JSValue) : JSValue :=
  if jsTruthy a then a else b

/-- Reading the `i`-th parameter of a JS function call: a missing argument is `undefined`. -/
def jsArg (callArgs : List JSValue) (i : Nat) : JSValue :=
  (callArgs.get? i).getD JSValue.undef

/-- JavaScript `String(v)` (`Array.prototype.join` renders nested arrays this way,
with `undefined`/`null` elements as the empty string). -/
def jsToString : JSValue → String
  | .undef => "undefined"
  | .nullv => "null"
  | .bool b => cond b "true" "false"
  | .num n => toString n
  | .str s => s
  | .obj _ => "[object Object]"
  | .arr xs =>
      String.intercalate ","
        (xs.attach.map (fun ⟨v, _⟩ => if v.isUndefOrNull then "" else jsToString v))
decreasing_by
  simp only [JSValue.arr.sizeOf_spec]
  have := List.sizeOf_lt_of_mem ‹v ∈ xs›
  omega

/-- JavaScript `xs.join(sep)`. -/
def jsArrayJoin (xs : List JSValue) (sep : String) : String :=
  String.intercalate sep (xs.map (fun v => if v.isUndefOrNull then "" else jsToString v))

/-- JavaScript `Object.values(v)` for the truthy values the generated code can pass it
(plain objects, arrays, strings; other primitives have no own enumerable properties).
The modelled code only ever applies it to `variables || \x7b\x7d`, which is truthy. -/
def jsObjectValues : JSValue → List JSValue
  | .obj fields => fields.map (fun f => f.2)
  | .arr xs => xs
  | .str s => s.toList.map (fun c => JSValue.str (String.singleton c))
  | _ => []

/-- The per-operation cache-key override installed by the generator
(`src/index.js` lines 117-120), as a JS function of its call-argument list:

    toCacheKey: (_, variables) => \x7b
        const \x7b values \x7d = Object;
        return values(variables || \x7b\x7d).join('-');
    \x7d
-/
def generatedToCacheKey (callArgs : List JSValue) : String :=
  let vars := jsArg callArgs 1
  jsArrayJoin (jsObjectValues (jsOr vars (JSValue.obj []))) "-"

/-- The default key strategy: the external `object-hash` function (an opaque
collaborator, `import hash from 'object-hash'`), called as a JS function; it
reads its first parameter. The hash itself stays an arbitrary parameter. -/
def defaultStrategy (hash : JSValue → String) : List JSValue → String :=
  fun callArgs => hash (jsArg callArgs 0)

/-- The cache key a `read` call derives (`src/index.js` lines 19-20):

    const generateCacheKey = options?.toCacheKey ?? hash;
    const cacheKey = args ? generateCacheKey(args) : 'default';

`args` is the rest-parameter array, so the condition tests the truthiness of an
array value, and `generateCacheKey` receives the whole array as its single
call argument. -/
def derivedCacheKey (hash : JSValue → String) (toCacheKey : Option (List JSValue → String))
    (args : List JSValue) : String :=
  let generateCacheKey := toCacheKey.getD (defaultStrategy hash)
  if jsTruthy (JSValue.arr args) then generateCacheKey [JSValue.arr args] else "default"

/-- Property lookup in the `Record<string, TReturn>` cache: the first entry with
the key, if any (a JS record has at most one entry per key). -/
def cacheLookup : List (String × JSValue) → String → Option JSValue
  | [], _ => none
  | p :: rest, k => if p.1 == k then some p.2 else cacheLookup rest k

/-- `cache[k]`: property access, `undefined` when the key is absent. -/
def cacheIndex (cache : List (String × JSValue)) (k : String) : JSValue :=
  (cacheLookup cache k).getD JSValue.undef

/-- `cache[k] = v`: update the existing entry in place, or append a new one. -/
def cacheSet : List (String × JSValue) → String → JSValue → List (String × JSValue)
  | [], k, v => [(k, v)]
  | p :: rest, k, v => if p.1 == k then (k, v) :: rest else p :: cacheSet rest k v

/-- Outcome of one `read` call: a synchronous cache hit, or a thrown in-flight
fetch (the suspension signal), carrying the key its `.then` continuation will
write and the arguments the fetcher was invoked with. -/
inductive ReadOutcome where
  | hit (value : JSValue)
  | suspend (key : String) (fetchArgs : List JSValue)

/-- The body of `read` (`src/index.js` lines 18-23); named `repoRead` here only
because plain `read` collides with an imported name. -/
def repoRead (hash : JSValue → String) (toCacheKey : Option (List JSValue → String))
    (cache : List (String × JSValue)) (args : List JSValue) : ReadOutcome :=
  let cacheKey := derivedCacheKey hash toCacheKey args
  if (cacheIndex cache cacheKey).isUndef then ReadOutcome.suspend cacheKey args
  else ReadOutcome.hit (cacheIndex cache cacheKey)

/-- State of one repository instance: the cache record, the fetches started but
not yet settled (each remembering the key its continuation will write), and how
often the fetcher has been invoked. -/
structure RepoState where
  cache : List (String × JSValue)
  inFlight : List (String × List JSValue)
  fetchCount : Nat

/-- `createRepository` starts with `let cache = \x7b\x7d`, nothing in flight. -/
def initialState : RepoState := ⟨[], [], 0⟩

/-- An observable event at one repository: a `read` call, or the settlement of
the `i`-th in-flight fetch. The fetcher is an opaque asynchronous collaborator,
so a resolution may carry any value. -/
inductive Event where
  | call (args : List JSValue)
  | resolve (i : Nat) (v : JSValue)
  | reject (i : Nat)

/-- One step of the repository. A `read` either returns a value or starts a
fetch; a resolution runs `value => (cache[cacheKey] = value)`; a rejection
stores nothing. -/
def step (hash : JSValue → String) (toCacheKey : Option (List JSValue → String))
    (s : RepoState) : Event → RepoState × Option JSValue
  | .call args =>
      match repoRead hash toCacheKey s.cache args with
      | .hit v => (s, some v)
      | .suspend key fargs =>
          ({ s with inFlight := s.inFlight ++ [(key, fargs)], fetchCount := s.fetchCount + 1 },
           none)
  | .resolve i v =>
      match s.inFlight[i]? with
      | some (key, _) =>
          ({ s with cache := cacheSet s.cache key v, inFlight := s.inFlight.eraseIdx i }, none)
      | none => (s, none)
  | .reject i => ({ s with inFlight := s.inFlight.eraseIdx i }, none)

/-- Run a sequence of events. -/
def run (hash : JSValue → String) (toCacheKey : Option (List JSValue → String))
    (s : RepoState) (es : List Event) : RepoState :=
  es.foldl (fun st e => (step hash toCacheKey st e).1) s

/-!
Generator side (`src/index.js` lines 6, 58-138) and the output-file
validation (`src/index.js` lines 180-188).
-/

/-- Whether `s` ends in `suf` (JS `RegExp` anchor `$`). -/
def endsIn (s : String) (suf : String) : Bool :=
  suf.toList.isSuffixOf s.toList

/-- `lowerCaseFirstLetter` (src/index.js line 6): lower-case the first
character, then drop a trailing `Query`, then a trailing `Mutation`. -/
def lowerCaseFirstLetter (term : String) : String :=
  let lowered :=
    match term.toList with
    | [] => ""
    | c :: rest => String.mk (c.toLower :: rest)
  let s1 := if endsIn lowered "Query" then lowered.dropRight 5 else lowered
  if endsIn s1 "Mutation" then s1.dropRight 8 else s1

/-- Modelled from the spec: `pascalCase` comes from the external
`change-case-all` library, which is not part of this repository; spec section 4.3
describes the step only as "case-converting the operation name". For the
already-identifier-shaped names the claims use, this capitalises the first
letter. -/
def pascalCase (s : String) : String := s.capitalize

/-- Modelled from the spec: `convertName` is inherited from the external
`ClientSideBaseVisitor` base class, not part of this repository; per spec
section 4.3 the name is derived "by case-converting the operation name and
appending a suffix". -/
def convertName (name : String) (suffix : String) : String :=
  pascalCase name ++ suffix

/-- The fields of a parsed operation-definition node that `buildOperation`
reads: the optional `node.name.value` and, from `node.variableDefinitions`,
each `item.variable.name.value`. -/
structure OperationNode where
  name : Option String
  variableDefinitions : List String

/-- `variablesStringGenerator` (src/index.js lines 84-87): one comment line per
declared variable, indented with `spaces` tab characters. -/
def variablesStringGenerator (node : OperationNode) (spaces : Nat) : String :=
  node.variableDefinitions.foldl
    (fun collection name =>
      collection ++ "\n* " ++ String.mk (List.replicate spaces '\t') ++ name
        ++ ": // value for " ++ name)
    ""

/-- The JSDoc comment template of `buildOperation` (src/index.js lines 89-106). -/
def buildComment (node : OperationNode) (baseName documentKeyword clientAction : String) :
    String :=
  let ticks := "```"
  let exampleArg :=
    if node.variableDefinitions.length == 0 then ""
    else
      "\x7b\n*       variables: \x7b" ++ variablesStringGenerator node 3
        ++ "\n*       \x7d\n*   \x7d"
  "/** \n* use" ++ baseName ++ "\n*\n* Use this hook to execure a " ++ documentKeyword
    ++ " for use in React suspense.\n* Please use an error boundary to catch any errors.\n*\n* @param options options that will be passed into the query, supported options are listed on: https://www.apollographql.com/docs/react/api/core/#ApolloClient."
    ++ clientAction
    ++ "\n* \n* @example\n* " ++ ticks ++ "typescript\n* const data = use" ++ baseName
    ++ "(" ++ exampleArg ++ ");\n* " ++ ticks ++ "\n*/"

/-- `buildOperation` (src/index.js lines 58-138): the string one query or
mutation definition contributes to the generated output. Operations classified
as mutations return the empty string at line 71 before anything is emitted.
The `operationName` of lines 62-66 and the name-record push of lines 129-133
feed no output and are omitted. -/
def buildOperation (node : OperationNode) (documentVariableName : String)
    (operationType : String) (operationResultType : String)
    (operationVariablesType : String) : String :=
  let nodeName := node.name.getD ""
  let isMutation := operationType == "Mutation"
  let isQuery := operationType == "Query"
  if isMutation && !isQuery then "" else
  let optionsTypeString := if isMutation then "MutationOptions" else "QueryOptions"
  let clientAction := if isMutation then "mutate" else "query"
  let documentKeyword := if isMutation then "mutation" else "query"
  let baseName :=
    convertName nodeName ("Suspense" ++ (if isMutation then "Mutation" else "Query"))
  let optionsType := "Omit<" ++ optionsTypeString ++ "<" ++ operationVariablesType ++ ", "
    ++ operationResultType ++ ">, \x27" ++ documentKeyword ++ "\x27>"
  let comment := buildComment node baseName documentKeyword clientAction
  "\n        const " ++ lowerCaseFirstLetter baseName ++ " = createRepository<"
    ++ operationResultType ++ ", ApolloSuspenseArgs<" ++ optionsType
    ++ ">>(async (client: ApolloClient<object>, options: " ++ optionsType
    ++ ") => \x7b\n            const \x7b data \x7d = await client." ++ clientAction
    ++ "<" ++ operationResultType ++ ", " ++ operationVariablesType
    ++ ">(\x7b\n                " ++ documentKeyword ++ ": " ++ documentVariableName
    ++ ",\n                ...options,\n            \x7d);\n        \n            return data;\n        \x7d, \x7b\n            toCacheKey: (_, variables) => \x7b\n                const \x7b values \x7d = Object;\n                return values(variables || \x7b\x7d).join(\x27-\x27);\n            \x7d\n        \x7d)\n\n        "
    ++ comment
    ++ "\n        export const use" ++ baseName ++ " = (options: " ++ optionsType
    ++ ") => \x7b\n            const client = useApolloClient();\n            return "
    ++ lowerCaseFirstLetter baseName ++ ".read(client, options);\n        \x7d"

/-- Number of occurrences of the pattern in the character list. -/
def occurrencesAux (pat : List Char) : List Char → Nat
  | [] => 0
  | c :: rest => (if pat.isPrefixOf (c :: rest) then 1 else 0) + occurrencesAux pat rest

/-- Number of occurrences of `pat` in `s`. -/
def occurrences (s pat : String) : Nat :=
  occurrencesAux pat.toList s.toList

/-- Index of the last `.` in a character list, if any. -/
def lastDotIndex : List Char → Option Nat
  | [] => none
  | c :: rest =>
      match lastDotIndex rest with
      | some i => some (i + 1)
      | none => if c = '.' then some 0 else none

/-- Node's `path.extname` for POSIX paths: the suffix of the basename from its
last `.`, or the empty string when there is no `.` or the only `.` leads the
basename. -/
def extname (path : String) : String :=
  let base := (path.toList.reverse.takeWhile (fun c => c != '/')).reverse
  match lastDotIndex base with
  | none => ""
  | some 0 => ""
  | some i => String.mk (base.drop i)

/-- The recognised output extensions (src/index.js line 183). -/
def validFileExtensions : List String := [".ts", ".tsx"]

/-- The `validate` export (src/index.js lines 180-188): passes when
`disableChecks` is set, or when the output file has a recognised extension;
otherwise rejects with the extension error. -/
def validate (disableChecks : Bool) (outputFile : String) : Except String Unit :=
  if disableChecks then Except.ok ()
  else if validFileExtensions.contains (extname outputFile) then Except.ok ()
  else Except.error "The output file must be a typescript file ending with either .ts or .tsx"

/-- Whether `validate` fails (rejects with an error). -/
def validationFails (disableChecks : Bool) (outputFile : String) : Bool :=
  match validate disableChecks outputFile with
  | Except.error _ => true
  | Except.ok _ => false

/-!
Supporting lemmas about the cache record and the step function.
-/

theorem isUndef_eq_false (v : JSValue) (h : v ≠ JSValue.undef) : v.isUndef = false := by
  cases v <;> first | rfl | exact absurd rfl h

theorem cacheLookup_cacheSet (c : List (String × JSValue)) (k k' : String) (v : JSValue) :
    cacheLookup (cacheSet c k v) k' = if k' = k then some v else cacheLookup c k' := by
  induction c with
  | nil =>
      by_cases h : k' = k
      · subst h; simp [cacheSet, cacheLookup]
      · have h2 : (k == k') = false := beq_eq_false_iff_ne.mpr (Ne.symm h)
        simp [cacheSet, cacheLookup, h, h2]
  | cons p rest ih =>
      by_cases h1 : p.1 = k
      · have hb : (p.1 == k) = true := beq_iff_eq.mpr h1
        by_cases h2 : k' = k
        · subst h2; simp [cacheSet, cacheLookup, hb]
        · have hkk : (k == k') = false := beq_eq_false_iff_ne.mpr (Ne.symm h2)
          have hpk : (p.1 == k') = false := by
            rw [h1]; exact hkk
          simp [cacheSet, cacheLookup, hb, hkk, hpk, h2]
      · have hb : (p.1 == k) = false := beq_eq_false_iff_ne.mpr h1
        by_cases h3 : p.1 = k'
        · have hb3 : (p.1 == k') = true := beq_iff_eq.mpr h3
          have h4 : k' ≠ k := fun hk => h1 (h3.trans hk)
          simp [cacheSet, cacheLookup, hb, hb3, h4]
        · have hb3 : (p.1 == k') = false := beq_eq_false_iff_ne.mpr h3
          simp [cacheSet, cacheLookup, hb, hb3, ih]

theorem step_call_suspend (hash : JSValue → String) (tk : Option (List JSValue → String))
    (s : RepoState) (args : List JSValue)
    (h : (cacheIndex s.cache (derivedCacheKey hash tk args)).isUndef = true) :
    step hash tk s (Event.call args) =
      ({ s with inFlight := s.inFlight ++ [(derivedCacheKey hash tk args, args)],
                fetchCount := s.fetchCount + 1 }, none) := by
  simp [step, repoRead, h]

theorem step_call_hit (hash : JSValue → String) (tk : Option (List JSValue → String))
    (s : RepoState) (args : List JSValue) (v : JSValue)
    (hv : cacheLookup s.cache (derivedCacheKey hash tk args) = some v)
    (hne : v.isUndef = false) :
    step hash tk s (Event.call args) = (s, some v) := by
  have hidx : cacheIndex s.cache (derivedCacheKey hash tk args) = v := by
    simp [cacheIndex, hv]
  simp [step, repoRead, hidx, hne]

theorem step_call_cache (hash : JSValue → String) (tk : Option (List JSValue → String))
    (s : RepoState) (args : List JSValue) :
    (step hash tk s (Event.call args)).1.cache = s.cache := by
  cases hr : repoRead hash tk s.cache args <;> simp [step, hr]

theorem run_cons (hash : JSValue → String) (tk : Option (List JSValue → String))
    (s : RepoState) (e : Event) (es : List Event) :
    run hash tk s (e :: es) = run hash tk (step hash tk s e).1 es := rfl

/-!
Shared concrete material for the witnesses and counterexamples: a generated
repository uses `toCacheKey := generatedToCacheKey`; the external hash is
irrelevant under the override, so a constant stands in for it.
-/

/-- A stand-in for the external `object-hash` function. -/
def hash0 : JSValue → String := fun _ => "h"

/-- The options a generated repository passes to `createRepository`. -/
def tk0 : Option (List JSValue → String) := some generatedToCacheKey

/-- A repository state in which one fetch has been started and has resolved
with `undefined`: `read()`, then resolution of that fetch with `undefined`. -/
def undefResolvedState : RepoState :=
  run hash0 tk0 initialState [Event.call [], Event.resolve 0 JSValue.undef]

/-!
Claim theorems.
-/

/-- C1 counterexample: the claim fails when a fetch resolves with `undefined`.
On a generated repository, `read()` starts a fetch for key `""`; that fetch
resolves with `undefined`, and the value is stored in the cache (the entry for
`""` is present and holds `undefined`); yet the next `read()` deriving the same
key does not return the stored value (it suspends, output `none`) and invokes
the fetcher a second time. -/
theorem read_refetches_after_undefined_resolution :
    cacheLookup undefResolvedState.cache "" = some JSValue.undef ∧
    (step hash0 tk0 undefResolvedState (Event.call [])).2 = none ∧
    (step hash0 tk0 undefResolvedState (Event.call [])).1.fetchCount =
      undefResolvedState.fetchCount + 1 :=
  ⟨rfl, rfl, rfl⟩

/-- C1 (amended): for every repository and key, once a fetch has resolved and
its value `v` has been stored in the cache with `v` not `undefined`, a read
whose arguments derive that key returns the stored value synchronously and
does not invoke the fetcher again (the state, including the fetch count, is
unchanged). -/
theorem cache_hit_after_resolution (hash : JSValue → String)
    (tk : Option (List JSValue → String)) (s : RepoState) (args : List JSValue) (v : JSValue)
    (hstored : cacheLookup s.cache (derivedCacheKey hash tk args) = some v)
    (hv : v ≠ JSValue.undef) :
    step hash tk s (Event.call args) = (s, some v) :=
  step_call_hit hash tk s args v hstored (isUndef_eq_false v hv)

/-- C1 witness: in the state reached by `read()` followed by resolution of the
fetch with the string value `w`, the hypotheses of `cache_hit_after_resolution`
hold and the following `read()` returns `w` with the state unchanged. -/
theorem cache_hit_after_resolution_witness :
    cacheLookup (run hash0 tk0 initialState
        [Event.call [], Event.resolve 0 (JSValue.str "w")]).cache
      (derivedCacheKey hash0 tk0 []) = some (JSValue.str "w") ∧
    step hash0 tk0
        (run hash0 tk0 initialState [Event.call [], Event.resolve 0 (JSValue.str "w")])
        (Event.call []) =
      (run hash0 tk0 initialState [Event.call [], Event.resolve 0 (JSValue.str "w")],
       some (JSValue.str "w")) :=
  ⟨rfl,
   cache_hit_after_resolution hash0 tk0
     (run hash0 tk0 initialState [Event.call [], Event.resolve 0 (JSValue.str "w")])
     [] (JSValue.str "w") rfl (fun h => JSValue.noConfusion h)⟩

/-- C3: for every repository state in which the key derived from `args` is
absent, issuing `N` reads with those arguments before any fetch settles
performs exactly `N` fetcher invocations (the fetch count grows by `N`) and
leaves the cache unchanged — there is no in-flight de-duplication. -/
theorem no_inflight_dedup (hash : JSValue → String) (tk : Option (List JSValue → String))
    (s : RepoState) (args : List JSValue) (N : Nat)
    (habs : cacheLookup s.cache (derivedCacheKey hash tk args) = none) :
    (run hash tk s (List.replicate N (Event.call args))).fetchCount = s.fetchCount + N ∧
    (run hash tk s (List.replicate N (Event.call args))).cache = s.cache := by
  induction N generalizing s with
  | zero => simp [run]
  | succ n ih =>
      have hu : (cacheIndex s.cache (derivedCacheKey hash tk args)).isUndef = true := by
        simp [cacheIndex, habs, JSValue.isUndef]
      rw [List.replicate_succ, run_cons, step_call_suspend hash tk s args hu]
      have := ih (s := { s with inFlight := s.inFlight ++ [(derivedCacheKey hash tk args, args)],
                                fetchCount := s.fetchCount + 1 }) habs
      exact ⟨by rw [this.1]; show s.fetchCount + 1 + n = s.fetchCount + (n + 1); omega, this.2⟩

/-- C3 witness: from the initial state of a generated repository, with the key
for `read()` absent, three reads make the fetch count 3. -/
theorem no_inflight_dedup_witness :
    cacheLookup initialState.cache (derivedCacheKey hash0 tk0 []) = none ∧
    (run hash0 tk0 initialState (List.replicate 3 (Event.call []))).fetchCount =
      initialState.fetchCount + 3 :=
  ⟨rfl, (no_inflight_dedup hash0 tk0 initialState [] 3 rfl).1⟩

/-- C4: when a fetch rejects, nothing is stored — the cache is unchanged, so a
key that was absent stays absent — and a subsequent read deriving that key
suspends and starts a fresh fetch (one more fetcher invocation). -/
theorem rejection_leaves_key_absent (hash : JSValue → String)
    (tk : Option (List JSValue → String)) (s : RepoState) (i : Nat) (args : List JSValue)
    (habs : cacheLookup s.cache (derivedCacheKey hash tk args) = none) :
    (step hash tk s (Event.reject i)).1.cache = s.cache ∧
    cacheLookup (step hash tk s (Event.reject i)).1.cache (derivedCacheKey hash tk args)
      = none ∧
    (step hash tk (step hash tk s (Event.reject i)).1 (Event.call args)).2 = none ∧
    (step hash tk (step hash tk s (Event.reject i)).1 (Event.call args)).1.fetchCount =
      s.fetchCount + 1 := by
  have hu : (cacheIndex (step hash tk s (Event.reject i)).1.cache
      (derivedCacheKey hash tk args)).isUndef = true := by
    simp [step, cacheIndex, habs, JSValue.isUndef]
  rw [step_call_suspend hash tk (step hash tk s (Event.reject i)).1 args hu]
  exact ⟨rfl, habs, rfl, rfl⟩

/-- C4 witness: after `read()` started a fetch on a fresh generated repository,
rejecting that fetch leaves the cache unchanged and a second `read()` invokes
the fetcher again. -/
theorem rejection_leaves_key_absent_witness :
    cacheLookup (run hash0 tk0 initialState [Event.call []]).cache
      (derivedCacheKey hash0 tk0 []) = none ∧
    (step hash0 tk0 (run hash0 tk0 initialState [Event.call []]) (Event.reject 0)).1.cache =
      (run hash0 tk0 initialState [Event.call []]).cache ∧
    (step hash0 tk0
        (step hash0 tk0 (run hash0 tk0 initialState [Event.call []]) (Event.reject 0)).1
        (Event.call [])).1.fetchCount =
      (run hash0 tk0 initialState [Event.call []]).fetchCount + 1 :=
  ⟨rfl,
   (rejection_leaves_key_absent hash0 tk0 (run hash0 tk0 initialState [Event.call []])
      0 [] rfl).1,
   (rejection_leaves_key_absent hash0 tk0 (run hash0 tk0 initialState [Event.call []])
      0 [] rfl).2.2.2⟩

/-- C10: a stored `undefined` is indistinguishable from absence: if the cache
entry for the derived key is present but holds `undefined`, the presence test
`cache[cacheKey] === undefined` succeeds, so the read suspends (returns no
value) and invokes the fetcher again. -/
theorem undefined_value_indistinguishable_from_absence (hash : JSValue → String)
    (tk : Option (List JSValue → String)) (s : RepoState) (args : List JSValue)
    (h : cacheLookup s.cache (derivedCacheKey hash tk args) = some JSValue.undef) :
    (step hash tk s (Event.call args)).2 = none ∧
    (step hash tk s (Event.call args)).1.fetchCount = s.fetchCount + 1 := by
  have hu : (cacheIndex s.cache (derivedCacheKey hash tk args)).isUndef = true := by
    simp [cacheIndex, h, JSValue.isUndef]
  rw [step_call_suspend hash tk s args hu]
  exact ⟨rfl, rfl⟩

/-- C10 witness: in the state where a fetch for the generated repository's key
resolved with `undefined`, the entry is present, yet the next read suspends and
increments the fetch count. -/
theorem undefined_value_indistinguishable_from_absence_witness :
    cacheLookup undefResolvedState.cache (derivedCacheKey hash0 tk0 []) =
      some JSValue.undef ∧
    (step hash0 tk0 undefResolvedState (Event.call [])).1.fetchCount =
      undefResolvedState.fetchCount + 1 :=
  ⟨rfl,
   (undefined_value_indistinguishable_from_absence hash0 tk0 undefResolvedState [] rfl).2⟩

/-- C5 counterexample: a resolved entry can be overwritten. Two `read()` calls
on a fresh generated repository each start a fetch for key `""` (no
de-duplication); the first fetch resolves with `"v1"`, so the key is resolved
and maps to `"v1"`; when the second, still in-flight fetch later resolves with
`"v2"`, its continuation overwrites the entry, so the key no longer maps to the
same value. -/
theorem resolved_entry_overwritten_by_inflight_fetch :
    cacheLookup (run hash0 tk0 initialState
        [Event.call [], Event.call [], Event.resolve 0 (JSValue.str "v1")]).cache ""
      = some (JSValue.str "v1") ∧
    cacheLookup (run hash0 tk0 initialState
        [Event.call [], Event.call [], Event.resolve 0 (JSValue.str "v1"),
         Event.resolve 0 (JSValue.str "v2")]).cache ""
      = some (JSValue.str "v2") :=
  ⟨rfl, rfl⟩

/-- C5 (amended): once a key is resolved, the mapping never loses it — after
any further event an entry for the key is still present — and no read, no
rejection and no resolution of a fetch for another key changes its value; the
value can change only when a fetch for the same key that is still in flight
resolves and overwrites it with its own result. -/
theorem resolved_entry_persistence (hash : JSValue → String)
    (tk : Option (List JSValue → String)) (s : RepoState) (e : Event) (k : String)
    (v : JSValue) (h : cacheLookup s.cache k = some v) :
    (∃ w, cacheLookup (step hash tk s e).1.cache k = some w) ∧
    (∀ w, cacheLookup (step hash tk s e).1.cache k = some w →
        w = v ∨ ∃ i fargs, s.inFlight[i]? = some (k, fargs) ∧ e = Event.resolve i w) := by
  cases e with
  | call args =>
      rw [step_call_cache]
      exact ⟨⟨v, h⟩, fun w hw => Or.inl (Option.some.inj (h.symm.trans hw)).symm⟩
  | reject i =>
      have hc : (step hash tk s (Event.reject i)).1.cache = s.cache := rfl
      rw [hc]
      exact ⟨⟨v, h⟩, fun w hw => Or.inl (Option.some.inj (h.symm.trans hw)).symm⟩
  | resolve i w0 =>
      cases hif : s.inFlight[i]? with
      | none =>
          have hc : (step hash tk s (Event.resolve i w0)).1.cache = s.cache := by
            simp [step, hif]
          rw [hc]
          exact ⟨⟨v, h⟩, fun w hw => Or.inl (Option.some.inj (h.symm.trans hw)).symm⟩
      | some p =>
          have hc : (step hash tk s (Event.resolve i w0)).1.cache =
              cacheSet s.cache p.1 w0 := by
            simp [step, hif]
          rw [hc, cacheLookup_cacheSet]
          by_cases hk : k = p.1
          · subst hk
            refine ⟨⟨w0, by simp⟩, fun w hw => Or.inr ⟨i, p.2, ?_, ?_⟩⟩
            · rw [hif]
            · simp at hw
              rw [hw]
          · simp only [if_neg hk]
            exact ⟨⟨v, h⟩, fun w hw => Or.inl (Option.some.inj (h.symm.trans hw)).symm⟩

/-- C5 witness: with the generated repository's key resolved to `"a"`, a
further read leaves an entry present for the key. -/
theorem resolved_entry_persistence_witness :
    cacheLookup (run hash0 tk0 initialState
        [Event.call [], Event.resolve 0 (JSValue.str "a")]).cache "" =
      some (JSValue.str "a") ∧
    (∃ w, cacheLookup (step hash0 tk0
        (run hash0 tk0 initialState [Event.call [], Event.resolve 0 (JSValue.str "a")])
        (Event.call [])).1.cache "" = some w) :=
  ⟨rfl,
   (resolved_entry_persistence hash0 tk0
      (run hash0 tk0 initialState [Event.call [], Event.resolve 0 (JSValue.str "a")])
      (Event.call []) "" (JSValue.str "a") rfl).1⟩

/-- The variables object of the README scenario: `\x7bcity: "melbourne", country: "au"\x7d`. -/
def melbourneVars : JSValue :=
  JSValue.obj [("city", JSValue.str "melbourne"), ("country", JSValue.str "au")]

/-- C2: the override itself, invoked with two call arguments
`(client, variables)` as its declared parameter list expects, ignores the first
and joins the variables' values with `"-"`, giving `"melbourne-au"`; but a
`read` invoked with those argument values passes the whole argument array as
the strategy's single call argument, so the override's `variables` parameter is
`undefined` and the key the read derives is `""`, not `"melbourne-au"`. -/
theorem generated_override_key_divergence :
    generatedToCacheKey [JSValue.obj [], melbourneVars] = "melbourne-au" ∧
    (∀ (hash : JSValue → String) (client : JSValue),
      derivedCacheKey hash (some generatedToCacheKey) [client, melbourneVars] = "") := by
  constructor
  · simp [generatedToCacheKey, melbourneVars, jsArg, jsOr, jsTruthy, jsObjectValues,
      jsArrayJoin, jsToString, JSValue.isUndefOrNull]
    rfl
  · intro hash client
    rfl

/-- C8: the `'default'` literal is dead code. Without an override, the key a
read derives is always the hash of the whole argument array — the condition
`args ?` tests a rest-parameter array, which is always truthy — so in
particular a call with no arguments uses `hash([])`, never the literal key
`"default"` the claim (and the code's own `: 'default'` branch) prescribes. -/
theorem default_key_branch_unreachable :
    ∀ (hash : JSValue → String) (args : List JSValue),
      derivedCacheKey hash none args = hash (JSValue.arr args) :=
  fun _ _ => rfl

/-- C9: on every repository produced by the generator, the installed
`toCacheKey` override receives the whole argument array as its single call
argument, so its `variables` parameter is always `undefined` and
`Object.values(undefined || \x7b\x7d).join('-')` is `""`: every read, whatever its
client and options arguments, derives the single cache key `""`. -/
theorem generated_repository_single_cache_key :
    ∀ (hash : JSValue → String) (args : List JSValue),
      derivedCacheKey hash (some generatedToCacheKey) args = "" :=
  fun _ _ => rfl

/-- The `GetWeather` query operation of the README scenario. -/
def getWeatherNode : OperationNode := ⟨some "GetWeather", ["city", "country"]⟩

/-- The `UpdateCity` mutation operation of the claim's scenario. -/
def updateCityNode : OperationNode := ⟨some "UpdateCity", ["city"]⟩

/-- What `buildOperation` emits for the `GetWeather` query. -/
def getWeatherBody : String :=
  buildOperation getWeatherNode "GetWeatherDocument" "Query"
    "GetWeatherQuery" "GetWeatherQueryVariables"

/-- What `buildOperation` emits for the `UpdateCity` mutation. -/
def updateCityBody : String :=
  buildOperation updateCityNode "UpdateCityDocument" "Mutation"
    "UpdateCityMutation" "UpdateCityMutationVariables"

set_option maxRecDepth 100000 in
/-- C6: generating from a document with the query `GetWeather` and the mutation
`UpdateCity` emits nothing for the mutation (its branch contributes the empty
string), and the joined output contains exactly one accessor declaration,
named `useGetWeatherSuspenseQuery`. -/
theorem mutation_exclusion :
    updateCityBody = "" ∧
    occurrences (String.intercalate "\n" [getWeatherBody, updateCityBody])
      "export const use" = 1 ∧
    occurrences (String.intercalate "\n" [getWeatherBody, updateCityBody])
      "export const useGetWeatherSuspenseQuery" = 1 :=
  ⟨rfl, by decide, by decide⟩

/-- C7: `validate` fails exactly when `disableChecks` is not set and the output
file's extension is neither `.ts` nor `.tsx`; in particular it rejects
`schema.py` with `disableChecks` false and accepts `schema.tsx`. -/
theorem validate_extension_check :
    (∀ (disableChecks : Bool) (outputFile : String),
      validationFails disableChecks outputFile = true ↔
        (disableChecks = false ∧ extname outputFile ≠ ".ts" ∧ extname outputFile ≠ ".tsx")) ∧
    validationFails false "schema.py" = true ∧
    validationFails false "schema.tsx" = false := by
  refine ⟨fun d f => ?_, rfl, rfl⟩
  cases d with
  | true => simp [validationFails, validate]
  | false =>
      by_cases h1 : extname f = ".ts"
      · simp [validationFails, validate, validFileExtensions, h1]
      · by_cases h2 : extname f = ".tsx"
        · simp [validationFails, validate, validFileExtensions, h2]
        · simp [validationFails, validate, validFileExtensions, h1, h2]
